import Mathlib

/-!
Shallow embedding of the warehouse-layout optimisation program
(`warehouse.py`, `robot.py`, `pathfinding.py`, `main.py`, `optimization.py`).
Python objects become immutable Lean structures; in-place mutation becomes
explicit state passing.  Machine integers are `Int`/`Nat`; Python floats that
only ever hold exact decimal values (energy bookkeeping) are `Rat`.
Python's `heapq` of `(f, position)` tuples is modelled by extracting the
lexicographic minimum of a list, which reproduces `heappop`'s order exactly
(ties on `f` are broken by tuple comparison of the positions).
Randomness (`random.shuffle`, `random.uniform`) is modelled by oracle
parameters quantified over in the theorems.
-/

abbrev Pos := Int × Int

/-- One entry of `Warehouse.entry_docks` (a Python dict with keys
`position` and `dock_id`). -/
structure Dock where
  position : Pos
  dock_id : String
  deriving Repr, DecidableEq

/-- One entry of `Warehouse.packing_stations`. -/
structure Station where
  position : Pos
  station_id : String
  deriving Repr, DecidableEq

/-- One entry of `Warehouse.aisles` (keys `start`, `end`, `aisle_id`,
`positions`). -/
structure Aisle where
  start_pos : Pos
  end_pos : Pos
  aisle_id : String
  positions : List Pos
  deriving Repr, DecidableEq

/-- The state of `robot.Robot`.  The back reference `self.warehouse` is not a
field: it is passed explicitly (as `Option Warehouse`) to the methods that
read it, and a robot that lives in a warehouse is identified by its index in
`active_robots` (Python object identity). -/
structure Robot where
  robot_id : String
  current_position : Pos
  target_position : Pos
  is_moving : Bool
  movement_history : List Pos
  total_energy_spent : Rat
  successful_moves : Nat
  blocked_attempts : Nat
  total_congestion_penalty : Rat
  energy_per_move : Rat
  energy_per_blocked_attempt : Rat
  deriving Repr, DecidableEq

/-- `Robot.__init__(robot_id, x, y, warehouse)`. -/
def Robot.make (robot_id : String) (x y : Int) : Robot where
  robot_id := robot_id
  current_position := (x, y)
  target_position := (x, y)
  is_moving := false
  movement_history := [(x, y)]
  total_energy_spent := 0
  successful_moves := 0
  blocked_attempts := 0
  total_congestion_penalty := 0
  energy_per_move := 1
  energy_per_blocked_attempt := 1/2

/-- The state of `warehouse.Warehouse`.  `blocked_positions` is a Python
set, embedded as a duplicate-free list (only membership is ever used);
`congestion_map` is a Python dict, embedded as an association list in
insertion order. -/
structure Warehouse where
  width : Int
  height : Int
  entry_docks : List Dock
  packing_stations : List Station
  aisles : List Aisle
  active_robots : List Robot
  blocked_positions : List Pos
  congestion_map : List (Pos × Nat)
  deriving Repr, DecidableEq

/-- `Warehouse.__init__(width, height)`. -/
def Warehouse.make (width height : Int) : Warehouse where
  width := width
  height := height
  entry_docks := []
  packing_stations := []
  aisles := []
  active_robots := []
  blocked_positions := []
  congestion_map := []

/-- Python `set.add` on the blocked-positions set. -/
def setAdd (l : List Pos) (p : Pos) : List Pos :=
  if p ∈ l then l else l ++ [p]

/-- Increment a key of a Python dict of counters (insert with value 1 when
absent, as `congestion_map.get(pos, 0) + 1` does). -/
def bumpCount : List (Pos × Nat) → Pos → List (Pos × Nat)
  | [], p => [(p, 1)]
  | (q, n) :: rest, p =>
    if q = p then (q, n + 1) :: rest else (q, n) :: bumpCount rest p

/-- Dict lookup with default 0 (`congestion_map.get((x, y), 0)`). -/
def lookupCount : List (Pos × Nat) → Pos → Nat
  | [], _ => 0
  | (q, n) :: rest, p => if q = p then n else lookupCount rest p

/-- `Warehouse.record_congestion`. -/
def Warehouse.record_congestion (w : Warehouse) (x y : Int) : Warehouse :=
  { w with congestion_map := bumpCount w.congestion_map (x, y) }

/-- `Warehouse.get_congestion`. -/
def Warehouse.get_congestion (w : Warehouse) (x y : Int) : Nat :=
  lookupCount w.congestion_map (x, y)

/-- `Warehouse.reset_congestion`. -/
def Warehouse.reset_congestion (w : Warehouse) : Warehouse :=
  { w with congestion_map := [] }

/-- `Warehouse.add_entry_dock`: registers the dock and ALSO adds its
position to `blocked_positions`. -/
def Warehouse.add_entry_dock (w : Warehouse) (x y : Int) (dock_id : Option String) :
    Warehouse :=
  let d : Dock :=
    ⟨(x, y), dock_id.getD ("dock_" ++ toString w.entry_docks.length)⟩
  { w with entry_docks := w.entry_docks ++ [d],
           blocked_positions := setAdd w.blocked_positions (x, y) }

/-- `Warehouse.add_packing_station` (the blocked-set insertion is commented
out in the source). -/
def Warehouse.add_packing_station (w : Warehouse) (x y : Int) (station_id : Option String) :
    Warehouse :=
  let s : Station :=
    ⟨(x, y), station_id.getD ("station_" ++ toString w.packing_stations.length)⟩
  { w with packing_stations := w.packing_stations ++ [s] }

/-- Python `range(a, b + 1)` over `Int` (inclusive of both ends; empty when
`b < a`). -/
def intRange (a b : Int) : List Int :=
  (List.range (b - a + 1).toNat).map (fun k => a + (k : Int))

/-- `Warehouse.add_aisle`: cell list of an aisle segment, exactly as the
three branches of the source build it. -/
def Warehouse.add_aisle (w : Warehouse) (start_x start_y end_x end_y : Int)
    (aisle_id : Option String) : Warehouse :=
  let ps : List Pos :=
    if start_x = end_x then
      (intRange (min start_y end_y) (max start_y end_y)).map (fun y => (start_x, y))
    else if start_y = end_y then
      (intRange (min start_x end_x) (max start_x end_x)).map (fun x => (x, start_y))
    else
      (intRange start_y end_y).map (fun y => (start_x, y)) ++
        (intRange (start_x + 1) end_x).map (fun x => (x, end_y))
  let a : Aisle :=
    ⟨(start_x, start_y), (end_x, end_y),
      (aisle_id.getD ("aisle_" ++ toString w.aisles.length)), ps⟩
  { w with aisles := w.aisles ++ [a] }

/-- `Warehouse.create_and_add_robot` (appends a fresh robot; the Python
return value is the object now at the last index). -/
def Warehouse.create_and_add_robot (w : Warehouse) (robot_id : String) (x y : Int) :
    Warehouse :=
  { w with active_robots := w.active_robots ++ [Robot.make robot_id x y] }

/-- `Warehouse.get_robot_by_id` (first robot with a matching id). -/
def Warehouse.get_robot_by_id (w : Warehouse) (robot_id : String) : Option Robot :=
  w.active_robots.find? (fun r => r.robot_id == robot_id)

/-- `Warehouse.is_valid_position`. -/
def Warehouse.is_valid_position (w : Warehouse) (x y : Int) : Bool :=
  decide (0 ≤ x ∧ x < w.width ∧ 0 ≤ y ∧ y < w.height)

/-- `Warehouse.is_blocked_position`. -/
def Warehouse.is_blocked_position (w : Warehouse) (x y : Int) : Bool :=
  w.blocked_positions.contains (x, y)

/-- `Warehouse.is_position_in_aisle`: aisle membership, or a dock position,
or a station position. -/
def Warehouse.is_position_in_aisle (w : Warehouse) (x y : Int) : Bool :=
  w.aisles.any (fun a => a.positions.contains (x, y)) ||
    w.entry_docks.any (fun d => d.position == (x, y)) ||
      w.packing_stations.any (fun s => s.position == (x, y))

/-- `Warehouse.add_blocked_position`. -/
def Warehouse.add_blocked_position (w : Warehouse) (x y : Int) : Warehouse :=
  { w with blocked_positions := setAdd w.blocked_positions (x, y) }

/-- `Warehouse.remove_blocked_position` (`set.discard`). -/
def Warehouse.remove_blocked_position (w : Warehouse) (x y : Int) : Warehouse :=
  { w with blocked_positions := w.blocked_positions.filter (fun p => p ≠ (x, y)) }

/-- Overwriting insertion into a Python dict with string keys (keeps the
first-insertion order of keys, later writes replace the value). -/
def strWrite {α : Type} : List (String × α) → String → α → List (String × α)
  | [], k, v => [(k, v)]
  | (k', v') :: rest, k, v =>
    if k' = k then (k', v) :: rest else (k', v') :: strWrite rest k v

/-- Lookup in a Python dict with string keys (`d.get(k)` / `d[k]`). -/
def strGet {α : Type} : List (String × α) → String → Option α
  | [], _ => none
  | (k', v) :: rest, k => if k' = k then some v else strGet rest k

/-- `Warehouse.get_robot_positions` (a dict comprehension: a later robot
with the same id overwrites an earlier one). -/
def Warehouse.get_robot_positions (w : Warehouse) : List (String × Pos) :=
  w.active_robots.foldl (fun d r => strWrite d r.robot_id r.current_position) []

/-- `Warehouse.get_active_robots` (a shallow copy; in the embedding simply
the list). -/
def Warehouse.get_active_robots (w : Warehouse) : List Robot :=
  w.active_robots

/-- `Robot.set_target_position`. -/
def Robot.set_target_position (r : Robot) (x y : Int) : Robot :=
  { r with target_position := (x, y) }

/-- `Robot.is_at_target`. -/
def Robot.is_at_target (r : Robot) : Bool :=
  r.current_position == r.target_position

/-- `Robot.distance_to_target` (Manhattan). -/
def Robot.distance_to_target (r : Robot) : Int :=
  |r.target_position.1 - r.current_position.1| +
    |r.target_position.2 - r.current_position.2|

/-- `Robot.add_congestion_penalty` (the penalty is added to the congestion
counter AND to the energy total). -/
def Robot.add_congestion_penalty (r : Robot) (penalty : Rat) : Robot :=
  { r with total_congestion_penalty := r.total_congestion_penalty + penalty,
           total_energy_spent := r.total_energy_spent + penalty }

/-- `Robot._consume_energy_for_move`. -/
def Robot.consume_energy_for_move (r : Robot) : Robot :=
  { r with total_energy_spent := r.total_energy_spent + r.energy_per_move,
           successful_moves := r.successful_moves + 1 }

/-- `Robot._consume_energy_for_blocked_attempt`. -/
def Robot.consume_energy_for_blocked_attempt (r : Robot) : Robot :=
  { r with total_energy_spent := r.total_energy_spent + r.energy_per_blocked_attempt,
           blocked_attempts := r.blocked_attempts + 1 }

/-- `Robot.check_collision(new_x, new_y)`.  `wOpt` is `self.warehouse`
(`none` gives the source's early `return False`); `selfIdx` is the index of
`self` in `active_robots` (the `robot != self` identity test); an index out
of range means `self` is not in the list, so every listed robot is "other". -/
def Robot.check_collision (wOpt : Option Warehouse) (selfIdx : Nat)
    (new_x new_y : Int) : Bool :=
  match wOpt with
  | none => false
  | some w =>
    if !(w.is_valid_position new_x new_y) then true
    else if w.active_robots.enum.any
        (fun jr => jr.1 != selfIdx && jr.2.current_position == (new_x, new_y)) then true
    else if w.is_blocked_position new_x new_y then true
    else if !(w.is_position_in_aisle new_x new_y) then true
    else false

/-- `Robot.move_left` on the robot value `self` (living at `selfIdx` of
`wOpt`, when it lives in a warehouse): returns the updated robot and the
success flag. -/
def Robot.move_left (wOpt : Option Warehouse) (selfIdx : Nat) (self : Robot) :
    Robot × Bool :=
  let cx := self.current_position.1
  let cy := self.current_position.2
  let new_x := cx - 1
  if !(Robot.check_collision wOpt selfIdx new_x cy) then
    let r := { self with current_position := (new_x, cy),
                         movement_history := self.movement_history ++ [(new_x, cy)] }
    (r.consume_energy_for_move, true)
  else
    (self.consume_energy_for_blocked_attempt, false)

/-- `Robot.move_right`: on success it updates position and history but —
unlike the other three directions — does NOT call
`_consume_energy_for_move`. -/
def Robot.move_right (wOpt : Option Warehouse) (selfIdx : Nat) (self : Robot) :
    Robot × Bool :=
  let cx := self.current_position.1
  let cy := self.current_position.2
  let new_x := cx + 1
  if !(Robot.check_collision wOpt selfIdx new_x cy) then
    let r := { self with current_position := (new_x, cy),
                         movement_history := self.movement_history ++ [(new_x, cy)] }
    (r, true)
  else
    (self.consume_energy_for_blocked_attempt, false)

/-- `Robot.move_up` (towards smaller `y`). -/
def Robot.move_up (wOpt : Option Warehouse) (selfIdx : Nat) (self : Robot) :
    Robot × Bool :=
  let cx := self.current_position.1
  let cy := self.current_position.2
  let new_y := cy - 1
  if !(Robot.check_collision wOpt selfIdx cx new_y) then
    let r := { self with current_position := (cx, new_y),
                         movement_history := self.movement_history ++ [(cx, new_y)] }
    (r.consume_energy_for_move, true)
  else
    (self.consume_energy_for_blocked_attempt, false)

/-- `Robot.move_down` (towards larger `y`). -/
def Robot.move_down (wOpt : Option Warehouse) (selfIdx : Nat) (self : Robot) :
    Robot × Bool :=
  let cx := self.current_position.1
  let cy := self.current_position.2
  let new_y := cy + 1
  if !(Robot.check_collision wOpt selfIdx cx new_y) then
    let r := { self with current_position := (cx, new_y),
                         movement_history := self.movement_history ++ [(cx, new_y)] }
    (r.consume_energy_for_move, true)
  else
    (self.consume_energy_for_blocked_attempt, false)

/-! ## Path planner (`pathfinding.py`) -/

/-- `pathfinding.heuristic`: Manhattan distance. -/
def heuristic (a b : Pos) : Int :=
  |a.1 - b.1| + |a.2 - b.2|

/-- Search state of `a_star_search`: the closed set, the heap contents, the
`came_from`, `g_score` and `f_score` dicts. -/
structure AStarState where
  closed_set : List Pos
  open_set : List (Int × Pos)
  came_from : List (Pos × Pos)
  g_score : List (Pos × Int)
  f_score : List (Pos × Int)
  deriving Repr

/-- Dict lookup used for `came_from` / `g_score` / `f_score`. -/
def lookupAssoc {α : Type} : List (Pos × α) → Pos → Option α
  | [], _ => none
  | (q, v) :: rest, p => if q = p then some v else lookupAssoc rest p

/-- Overwriting dict write used for `came_from` / `g_score` / `f_score`. -/
def writeAssoc {α : Type} : List (Pos × α) → Pos → α → List (Pos × α)
  | [], p, v => [(p, v)]
  | (q, v') :: rest, p, v =>
    if q = p then (q, v) :: rest else (q, v') :: writeAssoc rest p v

/-- Strict lexicographic order on heap entries `(f, (x, y))`: exactly how
Python compares the tuples `heapq` stores. -/
def heapLt (a b : Int × Pos) : Bool :=
  decide (a.1 < b.1) ||
    (decide (a.1 = b.1) &&
      (decide (a.2.1 < b.2.1) ||
        (decide (a.2.1 = b.2.1) && decide (a.2.2 < b.2.2))))

/-- `heapq.heappop`: extract the lexicographically least entry (and the
remaining entries).  Returns `none` on an empty heap. -/
def heapPop (l : List (Int × Pos)) : Option ((Int × Pos) × List (Int × Pos)) :=
  match l with
  | [] => none
  | x :: xs =>
    let m := xs.foldl (fun m y => if heapLt y m then y else m) x
    some (m, l.erase m)

/-- Path reconstruction of `a_star_search`: follow `came_from` from the goal
back; the walk is fuelled by the size of `came_from` (enough for any acyclic
chain, and the chains built by the search are acyclic). -/
def followCameFrom (came_from : List (Pos × Pos)) : Pos → Nat → List Pos
  | _, 0 => []
  | cur, fuel + 1 =>
    match lookupAssoc came_from cur with
    | some prev => cur :: followCameFrom came_from prev fuel
    | none => []

/-- Reconstructed path: the visited chain plus the start, reversed — line
for line the `while current in came_from` loop of the source. -/
def reconstructPath (came_from : List (Pos × Pos)) (start cur : Pos) : List Pos :=
  ((followCameFrom came_from cur (came_from.length + 1)) ++ [start]).reverse

/-- Neighbour processing of one direction `(dx, dy)` inside the main loop of
`a_star_search` (the five rejection checks, then relaxation, then the
conditional push — with the priority frozen at first discovery, since a
node already in the open set is never pushed again). -/
def aStarVisit (w : Warehouse) (goal : Pos) (others : List Pos) (penalty : Int)
    (current : Pos) (s : AStarState) (d : Int × Int) : AStarState :=
  let neighbor : Pos := (current.1 + d.1, current.2 + d.2)
  if !(w.is_valid_position neighbor.1 neighbor.2) then s
  else if neighbor ∈ s.closed_set then s
  else if w.is_blocked_position neighbor.1 neighbor.2 && neighbor != goal then s
  else if neighbor ∈ others then s
  else if (!(w.is_position_in_aisle neighbor.1 neighbor.2) && neighbor != goal) then s
  else
    let congestion_cost : Int := (w.get_congestion neighbor.1 neighbor.2 : Int) * penalty
    let tentative_g : Int := ((lookupAssoc s.g_score current).getD 0) + 1 + congestion_cost
    let better : Bool :=
      match lookupAssoc s.g_score neighbor with
      | none => true
      | some g => decide (tentative_g < g)
    if better then
      let fNew := tentative_g + heuristic neighbor goal
      let s' : AStarState :=
        { s with came_from := writeAssoc s.came_from neighbor current,
                 g_score := writeAssoc s.g_score neighbor tentative_g,
                 f_score := writeAssoc s.f_score neighbor fNew }
      if !(s'.open_set.any (fun it => it.2 == neighbor)) then
        { s' with open_set := s'.open_set ++ [(fNew, neighbor)] }
      else s'
    else s

/-- The four candidate directions, in source order (`Up, Down, Right, Left`
per the comment — `(0,1), (0,-1), (1,0), (-1,0)`). -/
def aStarDirs : List (Int × Int) := [(0, 1), (0, -1), (1, 0), (-1, 0)]

/-- The `while open_set` loop of `a_star_search`, fuelled; each iteration
pops the least heap entry, tests the goal, closes the node and visits its
four neighbours. -/
def aStarLoop (w : Warehouse) (start goal : Pos) (others : List Pos)
    (penalty : Int) : AStarState → Nat → List Pos
  | _, 0 => []
  | s, fuel + 1 =>
    match heapPop s.open_set with
    | none => []
    | some ((_, current), rest) =>
      if current = goal then reconstructPath s.came_from start current
      else
        let s' : AStarState :=
          { s with open_set := rest, closed_set := s.closed_set ++ [current] }
        let s'' := aStarDirs.foldl (aStarVisit w goal others penalty current) s'
        aStarLoop w start goal others penalty s'' fuel

/-- `pathfinding.a_star_search`.  `all_robot_positions` is the positions
dict; `congestion_penalty` defaults to 1 at every call site.  The fuel
`width*height + 2` dominates the loop's true iteration count (every
position enters the open set at most once). -/
def a_star_search (w : Warehouse) (start goal : Pos) (robot_id : String)
    (all_robot_positions : List (String × Pos)) (congestion_penalty : Int) :
    List Pos :=
  let others : List Pos :=
    ((all_robot_positions.filter (fun kv => kv.1 != robot_id)).map (fun kv => kv.2))
  let s0 : AStarState :=
    { closed_set := []
      open_set := [(0, start)]
      came_from := []
      g_score := [(start, 0)]
      f_score := [(start, heuristic start goal)] }
  aStarLoop w start goal others congestion_penalty s0 ((w.width * w.height).toNat + 2)

/-- Total cost of a path under the planner's edge cost (pathfinding.py line
98): 1 per step plus `congestion(entered cell) × penalty` for each entered
cell. -/
def path_cost (w : Warehouse) (penalty : Int) : List Pos → Int
  | [] => 0
  | [_] => 0
  | _ :: (next :: rest) =>
    (1 + (w.get_congestion next.1 next.2 : Int) * penalty) +
      path_cost w penalty (next :: rest)

/-! ## Execution and replanning engine (`main.py`, `RobotController`) -/

/-- The state of `main.RobotController`: the (shared) warehouse, the per-robot
command queues (`robot_commands`, a dict of lists of direction strings) and
the tick counter. -/
structure RobotController where
  warehouse : Warehouse
  robot_commands : List (String × List String)
  step_count : Nat
  deriving Repr, DecidableEq

/-- `RobotController.__init__(warehouse)`. -/
def RobotController.make (w : Warehouse) : RobotController :=
  ⟨w, [], 0⟩

/-- `RobotController.convert_path_to_directions` (pairs of consecutive
cells; a non-unit step appends nothing). -/
def convert_path_to_directions : List Pos → List String
  | a :: b :: rest =>
    let dx := b.1 - a.1
    let dy := b.2 - a.2
    let d : List String :=
      if dx = 1 then ["right"]
      else if dx = -1 then ["left"]
      else if dy = 1 then ["down"]
      else if dy = -1 then ["up"]
      else []
    d ++ convert_path_to_directions (b :: rest)
  | _ => []

/-- `RobotController.add_commands` (create the key with `[]` when missing,
then extend). -/
def add_commands (cmds : List (String × List String)) (robot_id : String)
    (directions : List String) : List (String × List String) :=
  match strGet cmds robot_id with
  | none => strWrite cmds robot_id directions
  | some old => strWrite cmds robot_id (old ++ directions)

/-- `RobotController.generate_path_commands`: clear the robot's queue (when
the key exists), run A* from its position to its target against the live
positions dict, and enqueue the converted directions when the path has more
than one cell.  Only `robot_commands` changes; the warehouse and the tick
counter are untouched. -/
def generate_path_commands (c : RobotController) (robot_id : String) :
    RobotController :=
  match c.warehouse.get_robot_by_id robot_id with
  | none => c
  | some robot =>
    let cmds :=
      if (strGet c.robot_commands robot_id).isSome then
        strWrite c.robot_commands robot_id []
      else c.robot_commands
    let start := robot.current_position
    let goal := robot.target_position
    let all_robot_positions := c.warehouse.get_robot_positions
    let path := a_star_search c.warehouse start goal robot_id all_robot_positions 1
    if path != [] && path.length > 1 then
      { c with robot_commands := add_commands cmds robot_id (convert_path_to_directions path) }
    else
      { c with robot_commands := cmds }

/-- Python truthiness of `self.robot_commands.get(robot_id)`: false for a
missing key and for an empty queue. -/
def queueTruthy : Option (List String) → Bool
  | none => false
  | some [] => false
  | some (_ :: _) => true

/-- Dispatch of the `direction == "up" | "down" | "left" | "right"` chain of
`execute_one_step`; any other string leaves `success = False` and the robot
untouched. -/
def moveByName (wOpt : Option Warehouse) (selfIdx : Nat) (r : Robot)
    (direction : String) : Robot × Bool :=
  if direction == "up" then r.move_up wOpt selfIdx
  else if direction == "down" then r.move_down wOpt selfIdx
  else if direction == "left" then r.move_left wOpt selfIdx
  else if direction == "right" then r.move_right wOpt selfIdx
  else (r, false)

/-- `if robot_id not in robots_to_replan: robots_to_replan.append(robot_id)`. -/
def replanAdd (l : List String) (robot_id : String) : List String :=
  if robot_id ∈ l then l else l ++ [robot_id]

/-- The running totals of one `execute_one_step` call: the evolving
controller plus `movements_made`, `robots_with_commands` and
`robots_to_replan`. -/
structure TickAcc where
  c : RobotController
  movements_made : Nat
  robots_with_commands : Nat
  robots_to_replan : List String
  deriving Repr, DecidableEq

/-- The queue-refill line of `execute_one_step` for one robot: plan when the
queue is missing/empty and the robot is not at its target. -/
def refillQueue (c : RobotController) (robot : Robot) : RobotController :=
  if (!(queueTruthy (strGet c.robot_commands robot.robot_id)) && !robot.is_at_target) then
    generate_path_commands c robot.robot_id
  else c

/-- The move-attempt part of `execute_one_step`'s loop body for the robot at
index `i` (the state `c1` already reflects the queue refill).  On success
the consumed command is popped, congestion recorded, and a congestion
penalty and replan mark applied when the entered cell's level exceeds 1; on
failure the queue is left as it is and the robot is marked for replanning. -/
def attemptMove (acc : TickAcc) (i : Nat) (robot : Robot) (c1 : RobotController) :
    TickAcc :=
  match strGet c1.robot_commands robot.robot_id with
  | some (direction :: restCmds) =>
    let mv := moveByName (some c1.warehouse) i robot direction
    let w1 := { c1.warehouse with active_robots := c1.warehouse.active_robots.set i mv.1 }
    if mv.2 then
      let cmds1 := strWrite c1.robot_commands robot.robot_id restCmds
      let new_pos := mv.1.current_position
      let w2 := w1.record_congestion new_pos.1 new_pos.2
      let congestion_level := w2.get_congestion new_pos.1 new_pos.2
      if congestion_level > 1 then
        let penalty : Rat := 1 * ((congestion_level : Rat) - 1)
        let r2 := mv.1.add_congestion_penalty penalty
        let w3 := { w2 with active_robots := w2.active_robots.set i r2 }
        { c := { c1 with warehouse := w3, robot_commands := cmds1 },
          movements_made := acc.movements_made + 1,
          robots_with_commands := acc.robots_with_commands + 1,
          robots_to_replan := replanAdd acc.robots_to_replan robot.robot_id }
      else
        { c := { c1 with warehouse := w2, robot_commands := cmds1 },
          movements_made := acc.movements_made + 1,
          robots_with_commands := acc.robots_with_commands + 1,
          robots_to_replan := acc.robots_to_replan }
    else
      { c := { c1 with warehouse := w1 },
        movements_made := acc.movements_made,
        robots_with_commands := acc.robots_with_commands + 1,
        robots_to_replan := replanAdd acc.robots_to_replan robot.robot_id }
  | _ => { acc with c := c1 }

/-- One robot's turn inside `execute_one_step` (the body of
`for robot in self.warehouse.active_robots`, with the robot named by its
index — its Python object identity). -/
def stepRobot (acc : TickAcc) (i : Nat) : TickAcc :=
  match acc.c.warehouse.active_robots[i]? with
  | none => acc
  | some robot => attemptMove acc i robot (refillQueue acc.c robot)

/-- The information `execute_one_step`'s boolean return encodes: `True`
(keep going), or `False` because all robots are done, or `False` because of
gridlock. -/
inductive TickSignal
  | cont
  | allDone
  | gridlock
  deriving Repr, DecidableEq

/-- `RobotController.execute_one_step`: bump the tick counter, give every
robot one turn in list order, then replan (in marking order) every robot
marked during the turn, and classify the tick. -/
def execute_one_step (c : RobotController) : RobotController × TickSignal :=
  let c0 := { c with step_count := c.step_count + 1 }
  let acc :=
    (List.range c0.warehouse.active_robots.length).foldl stepRobot
      ⟨c0, 0, 0, []⟩
  let c2 := acc.robots_to_replan.foldl generate_path_commands acc.c
  let anyAway := c2.warehouse.active_robots.any (fun r => !r.is_at_target)
  if (acc.robots_with_commands == 0 && !anyAway) then (c2, TickSignal.allDone)
  else if (acc.movements_made == 0 && decide (acc.robots_with_commands > 0) &&
      acc.robots_to_replan.isEmpty) then (c2, TickSignal.gridlock)
  else (c2, TickSignal.cont)

/-- The terminal condition a full run ends in. -/
inductive Outcome
  | success
  | gridlock
  | timeout
  deriving Repr, DecidableEq

/-- The `while any(not robot.is_at_target() ...)` loop of
`execute_all_steps`, fuelled (`none` = fuel ran out, which the chosen fuel
makes unreachable). -/
def execAllLoop (max_steps : Nat) : RobotController → Nat →
    Option (RobotController × Outcome)
  | _, 0 => none
  | c, fuel + 1 =>
    if c.warehouse.get_active_robots.any (fun r => !r.is_at_target) then
      if c.step_count > max_steps then some (c, Outcome.timeout)
      else
        match execute_one_step c with
        | (c', TickSignal.cont) => execAllLoop max_steps c' fuel
        | (c', TickSignal.allDone) => some (c', Outcome.success)
        | (c', TickSignal.gridlock) => some (c', Outcome.gridlock)
    else some (c, Outcome.success)

/-- `RobotController.execute_all_steps(max_steps=50)`: reset congestion,
plan for every robot away from its target, then tick until completion,
gridlock or timeout.  The fuel `max_steps + 2` dominates the loop's true
iteration count (the tick counter grows by one per iteration and the loop
stops once it passes `max_steps`). -/
def execute_all_steps (c : RobotController) (max_steps : Nat) :
    Option (RobotController × Outcome) :=
  let c0 := { c with warehouse := c.warehouse.reset_congestion }
  let c1 := c0.warehouse.get_active_robots.foldl
    (fun cc r => if !r.is_at_target then generate_path_commands cc r.robot_id else cc) c0
  execAllLoop max_steps c1 (max_steps + 2)

/-- `main.simulate_robot_movement_with_astar` (with `visualize=False`):
build a controller, plan for every robot, run `execute_all_steps()` with the
default `max_steps=50`, and return the controller. -/
def simulate_robot_movement_with_astar (w : Warehouse) : RobotController :=
  let controller := RobotController.make w
  let controller := w.get_active_robots.foldl
    (fun cc r => generate_path_commands cc r.robot_id) controller
  match execute_all_steps controller 50 with
  | some (c', _) => c'
  | none => controller

/-! ## Layout optimiser (`optimization.py`) -/

/-- The metrics dict `evaluate_layout` returns, with its keys in insertion
order: `total_distance`, `total_energy`, `max_congestion`.  The fields are
rationals (Python mixes ints and floats freely here). -/
structure Metrics where
  total_distance : Rat
  total_energy : Rat
  max_congestion : Rat
  deriving Repr, DecidableEq

/-- The weights dict of `calculate_cost`. -/
structure Weights where
  w_d : Rat
  w_c : Rat
  w_e : Rat
  deriving Repr, DecidableEq

/-- `optimization.calculate_cost`. -/
def calculate_cost (metrics : Metrics) (weights : Weights) : Rat :=
  weights.w_d * metrics.total_distance +
    weights.w_c * metrics.max_congestion +
      weights.w_e * metrics.total_energy

/-- Python `f"ROBOT_{i:03d}"`'s numeric part. -/
def pad3 (i : Nat) : String :=
  if i < 10 then "00" ++ toString i
  else if i < 100 then "0" ++ toString i
  else toString i

/-- Update the robot appended most recently (the object Python's
`create_and_add_robot` returned). -/
def modifyLastRobot (f : Robot → Robot) : List Robot → List Robot
  | [] => []
  | [r] => [f r]
  | r :: rest => r :: modifyLastRobot f rest

/-- The robot-placement loop of `evaluate_layout`: pop a start dock and a
target station from the shuffled lists' ends for each of `num_robots`
robots, stopping early when either list runs out. -/
def placeRobots (w : Warehouse) (dock_positions station_positions : List Pos)
    (i remaining : Nat) : Warehouse :=
  match remaining with
  | 0 => w
  | rem + 1 =>
    if dock_positions.isEmpty || station_positions.isEmpty then w
    else
      match dock_positions.getLast?, station_positions.getLast? with
      | some start_pos, some target_pos =>
        let w1 := w.create_and_add_robot ("ROBOT_" ++ pad3 i) start_pos.1 start_pos.2
        let w2 := { w1 with active_robots :=
          (modifyLastRobot (fun r => r.set_target_position target_pos.1 target_pos.2)
            w1.active_robots) }
        placeRobots w2 dock_positions.dropLast station_positions.dropLast (i + 1) rem
      | _, _ => w

/-- Maximum of a list of congestion counters (`max(...)` over the dict's
values; the caller guards against the empty dict). -/
def listMaxNat (l : List Nat) : Nat :=
  l.foldl Nat.max 0

/-- `optimization.evaluate_layout`, as the state transformer it really is:
it clears the passed warehouse's robots and congestion map, places fresh
robots on shuffled docks/stations, runs the full simulation on that same
warehouse, and reads the metrics off it.  `shuffleD`/`shuffleS` are the two
`random.shuffle` draws, supplied as oracles.  Returns the mutated warehouse
together with the metrics dict. -/
def evaluate_layout (shuffleD shuffleS : List Pos → List Pos) (w : Warehouse)
    (num_robots : Nat) : Warehouse × Metrics :=
  let dock_positions := shuffleD (w.entry_docks.map (fun d => d.position))
  let station_positions := shuffleS (w.packing_stations.map (fun s => s.position))
  let wClean := { w with active_robots := [] }.reset_congestion
  let wPlaced := placeRobots wClean dock_positions station_positions 0 num_robots
  let controller := simulate_robot_movement_with_astar wPlaced
  let wFinal := controller.warehouse
  let total_distance : Rat :=
    wFinal.get_active_robots.foldl (fun t r => t + (r.successful_moves : Rat)) 0
  let total_energy : Rat :=
    wFinal.get_active_robots.foldl (fun t r => t + r.total_energy_spent) 0
  let max_congestion : Rat :=
    if wFinal.congestion_map.isEmpty then 0
    else (listMaxNat (wFinal.congestion_map.map (fun kv => kv.2)) : Rat)
  (wFinal, ⟨total_distance, total_energy, max_congestion⟩)

/-- `optimization.dominates`: the early-return loop over the keys of
`metrics_a` in dict order (`total_distance`, `total_energy`,
`max_congestion`), accumulating `a_better`. -/
def dominates (metrics_a metrics_b : Metrics) : Bool :=
  if decide (metrics_a.total_distance > metrics_b.total_distance) then false
  else
    let a_better := decide (metrics_a.total_distance < metrics_b.total_distance)
    if decide (metrics_a.total_energy > metrics_b.total_energy) then false
    else
      let a_better := a_better || decide (metrics_a.total_energy < metrics_b.total_energy)
      if decide (metrics_a.max_congestion > metrics_b.max_congestion) then false
      else a_better || decide (metrics_a.max_congestion < metrics_b.max_congestion)

/-- The `for old_metrics in archive` loop of `update_archive`: returns the
entries appended to `new_archive` and the `is_dominated_by_new` flag.  Note
the `break`: when an old tuple dominates the new one, that tuple and every
tuple after it are not appended. -/
def updateArchiveGo (new_solution_metrics : Metrics) :
    List Metrics → List Metrics × Bool
  | [] => ([], false)
  | old_metrics :: rest =>
    if dominates new_solution_metrics old_metrics then
      updateArchiveGo new_solution_metrics rest
    else if dominates old_metrics new_solution_metrics then
      ([], true)
    else
      let r := updateArchiveGo new_solution_metrics rest
      (old_metrics :: r.1, r.2)

/-- `optimization.update_archive`. -/
def update_archive (archive : List Metrics) (new_solution_metrics : Metrics) :
    List Metrics :=
  let r := updateArchiveGo new_solution_metrics archive
  if !r.2 then r.1 ++ [new_solution_metrics] else r.1

/-- The infrastructure cells of `get_neighbor_layout` (dock positions and
station positions). -/
def infrastructureCells (w : Warehouse) : List Pos :=
  w.entry_docks.map (fun d => d.position) ++ w.packing_stations.map (fun s => s.position)

/-- The aisle-structure update of `get_neighbor_layout`: remove the first
occurrence of the swapped-out cell from the first aisle that contains it and
append the swapped-in cell there. -/
def swapInAisles (aisle_to_become_storage storage_to_become_aisle : Pos) :
    List Aisle → List Aisle × Bool
  | [] => ([], false)
  | a :: rest =>
    if a.positions.contains aisle_to_become_storage then
      ({ a with positions :=
          (a.positions.erase aisle_to_become_storage) ++ [storage_to_become_aisle] } :: rest,
        true)
    else
      let r := swapInAisles aisle_to_become_storage storage_to_become_aisle rest
      (a :: r.1, r.2)

/-- Append a cell to the first aisle's positions (the
`not found_and_swapped` fallback). -/
def appendToFirstAisle (p : Pos) : List Aisle → List Aisle
  | [] => []
  | a :: rest => { a with positions := a.positions ++ [p] } :: rest

/-- `optimization.get_neighbor_layout`.  The deep copy is value semantics in
the embedding; the two `random.choice` draws are supplied as oracle indices
(reduced modulo the candidate-list lengths). -/
def get_neighbor_layout (pick_storage pick_aisle : Nat) (w : Warehouse) :
    Warehouse :=
  let infra := infrastructureCells w
  let storage_cells := w.blocked_positions.filter (fun cell => cell ∉ infra)
  let aisle_cells :=
    (w.aisles.flatMap (fun a => a.positions)).filter (fun pos => pos ∉ infra)
  if storage_cells.isEmpty || aisle_cells.isEmpty then w
  else
    let storage_to_become_aisle :=
      storage_cells.getD (pick_storage % storage_cells.length) (0, 0)
    let aisle_to_become_storage :=
      aisle_cells.getD (pick_aisle % aisle_cells.length) (0, 0)
    let w1 := w.remove_blocked_position storage_to_become_aisle.1 storage_to_become_aisle.2
    let w2 := w1.add_blocked_position aisle_to_become_storage.1 aisle_to_become_storage.2
    let sw := swapInAisles aisle_to_become_storage storage_to_become_aisle w2.aisles
    if sw.2 then { w2 with aisles := sw.1 }
    else if !(w2.aisles.isEmpty) then
      { w2 with aisles := appendToFirstAisle storage_to_become_aisle w2.aisles }
    else { w2 with aisles := sw.1 }

/-- The randomness one iteration of `simulated_annealing_optimizer`
consumes: the two `random.choice` draws of `get_neighbor_layout`, the two
`random.shuffle` draws of `evaluate_layout`, and the Metropolis comparison
`random.uniform(0,1) < exp(-cost_diff/temp)` (only consulted when
`cost_diff >= 0`). -/
structure SAIter where
  pick_storage : Nat
  pick_aisle : Nat
  shuffleD : List Pos → List Pos
  shuffleS : List Pos → List Pos
  coin : Bool

/-- The loop state of `simulated_annealing_optimizer`, plus a ghost trace
`evaluated` of every neighbour cost computed during the run (used only to
state properties; the source prints these values). -/
structure SAState where
  current_solution : Warehouse
  current_metrics : Metrics
  current_cost : Rat
  best_solution : Warehouse
  best_metrics : Metrics
  best_cost : Rat
  temp : Rat
  evaluated : List Rat

/-- One iteration of `simulated_annealing_optimizer`'s loop: generate a
neighbour, evaluate it, accept by the Metropolis rule, update the best
solution when the accepted cost is a new minimum, cool the temperature. -/
def saStep (num_robots : Nat) (weights : Weights) (cool_rate : Rat)
    (s : SAState) (it : SAIter) : SAState :=
  let neighbor := get_neighbor_layout it.pick_storage it.pick_aisle s.current_solution
  let ev := evaluate_layout it.shuffleD it.shuffleS neighbor num_robots
  let neighbor_metrics := ev.2
  let neighbor_cost := calculate_cost neighbor_metrics weights
  let cost_diff := neighbor_cost - s.current_cost
  let accept := decide (cost_diff < 0) || it.coin
  let cs := if accept then ev.1 else s.current_solution
  let cm := if accept then neighbor_metrics else s.current_metrics
  let cc := if accept then neighbor_cost else s.current_cost
  let newBest := decide (cc < s.best_cost)
  { current_solution := cs
    current_metrics := cm
    current_cost := cc
    best_solution := if newBest then cs else s.best_solution
    best_metrics := if newBest then cm else s.best_metrics
    best_cost := if newBest then cc else s.best_cost
    temp := s.temp * cool_rate
    evaluated := s.evaluated ++ [neighbor_cost] }

/-- `optimization.simulated_annealing_optimizer`: evaluate the initial
layout (mutating it), then run the annealing loop over the supplied
iteration randomness. -/
def simulated_annealing_optimizer (shuffleD0 shuffleS0 : List Pos → List Pos)
    (initial_warehouse : Warehouse) (num_robots : Nat) (weights : Weights)
    (temp cool_rate : Rat) (iters : List SAIter) : SAState :=
  let ev0 := evaluate_layout shuffleD0 shuffleS0 initial_warehouse num_robots
  let current_cost := calculate_cost ev0.2 weights
  let s0 : SAState :=
    { current_solution := ev0.1
      current_metrics := ev0.2
      current_cost := current_cost
      best_solution := ev0.1
      best_metrics := ev0.2
      best_cost := current_cost
      temp := temp
      evaluated := [] }
  iters.foldl (saStep num_robots weights cool_rate) s0

/-! ## Statement vocabulary and concrete scenarios -/

/-- A cell the planner may enter (the five checks of `a_star_search`'s
neighbour loop, minus the closed set): in bounds, not blocked unless it is
the goal, not occupied by another robot, and an aisle/dock/station cell
unless it is the goal. -/
def legal_cell (w : Warehouse) (goal : Pos) (others : List Pos) (p : Pos) : Bool :=
  w.is_valid_position p.1 p.2 &&
    (!(w.is_blocked_position p.1 p.2) || p == goal) &&
      !(others.contains p) &&
        (w.is_position_in_aisle p.1 p.2 || p == goal)

/-- Every cell after `prev` is one 4-connected step further and legal. -/
def legal_from (w : Warehouse) (goal : Pos) (others : List Pos) :
    Pos → List Pos → Bool
  | _, [] => true
  | prev, cell :: rest =>
    (heuristic prev cell == 1) && legal_cell w goal others cell &&
      legal_from w goal others cell rest

/-- A legal path for the planner: starts at `start`, ends at `goal`, moves
one 4-connected step at a time through legal cells. -/
def legal_path (w : Warehouse) (start goal : Pos) (others : List Pos) :
    List Pos → Bool
  | [] => false
  | cell :: rest =>
    cell == start && ((cell :: rest).getLast? == some goal) &&
      legal_from w goal others cell rest

/-- The positions of the robots other than the one at index `i` (the cells
`check_collision`'s occupancy scan rejects). -/
def other_robot_cells (w : Warehouse) (i : Nat) : List Pos :=
  (w.active_robots.enum.filter (fun jr => jr.1 ≠ i)).map
    (fun jr => jr.2.current_position)

/-- The layout structure `evaluate_layout` does not own: blocked cells,
aisles, docks and stations. -/
def sameLayout (a b : Warehouse) : Prop :=
  b.blocked_positions = a.blocked_positions ∧ b.aisles = a.aisles ∧
    b.entry_docks = a.entry_docks ∧ b.packing_stations = a.packing_stations

/-- Index-wise: every robot of `l1` is at most one grid step (Manhattan)
from the same-index robot of `l0`. -/
def robots_within_one_step (l0 l1 : List Robot) : Prop :=
  ∀ (k : Nat) (a b : Robot), l0[k]? = some a → l1[k]? = some b →
    heuristic b.current_position a.current_position ≤ 1

/-- Shorthand for `create_and_add_robot` followed by
`set_target_position` on the robot the Python call returned. -/
def addRobotWithTarget (w : Warehouse) (robot_id : String) (x y tx ty : Int) :
    Warehouse :=
  let w1 := w.create_and_add_robot robot_id x y
  { w1 with active_robots :=
      (modifyLastRobot (fun r => r.set_target_position tx ty) w1.active_robots) }

/-- The 5×5 grid of the spec's concrete scenario: one vertical aisle at
`x = 2` from `y = 0` to `y = 4`, a dock at `(2, 4)`, a station at `(2, 0)`. -/
def wVert : Warehouse :=
  ((((Warehouse.make 5 5).add_aisle 2 0 2 4 none).add_entry_dock 2 4
      none).add_packing_station 2 0 none)

/-- A 5×3 grid, every cell an aisle cell, with congestion 1 at `(3, 1)` and
congestion 2 at `(1, 0)` (two earlier visits): the instance on which the
planner's frozen open-set priorities return a suboptimal path. -/
def wSubopt : Warehouse :=
  let w := (((Warehouse.make 5 3).add_aisle 0 0 4 0 none).add_aisle 0 1 4 1
    none).add_aisle 0 2 4 2 none
  ((w.record_congestion 3 1).record_congestion 1 0).record_congestion 1 0

/-- The path `a_star_search` returns on `wSubopt` from `(4, 1)` to `(0, 0)`. -/
def suboptReturned : List Pos := [(4, 1), (4, 0), (3, 0), (2, 0), (1, 0), (0, 0)]

/-- A cheaper legal path on `wSubopt` from `(4, 1)` to `(0, 0)`. -/
def suboptCheaper : List Pos := [(4, 1), (3, 1), (2, 1), (1, 1), (0, 1), (0, 0)]

/-- A 2×2 grid with no aisles and one robot whose target is unreachable:
every tick re-plans, finds nothing, and keeps going to the timeout. -/
def wTimeoutDemo : Warehouse :=
  addRobotWithTarget (Warehouse.make 2 2) "R1" 0 0 1 1

/-- `wVert` with a caller-owned robot and a caller-owned congestion entry,
both of which `evaluate_layout` destroys. -/
def wEvalDemo : Warehouse :=
  (addRobotWithTarget wVert "OLD_ROBOT" 2 2 2 2).record_congestion 3 3

/-- A 2×1 grid whose only structure is a dock at `(1, 0)` (which
`add_entry_dock` also registered as blocked). -/
def wDockDemo : Warehouse :=
  (Warehouse.make 2 1).add_entry_dock 1 0 none

/-! ## Lemmas about the movement primitives -/

theorem move_up_fail_fields (wOpt : Option Warehouse) (i : Nat) (r : Robot)
    (h : (Robot.move_up wOpt i r).2 = false) :
    (Robot.move_up wOpt i r).1.current_position = r.current_position ∧
      (Robot.move_up wOpt i r).1.movement_history = r.movement_history := by
  revert h
  simp only [Robot.move_up]
  split
  · intro h; cases h
  · intro _; exact ⟨rfl, rfl⟩

theorem move_down_fail_fields (wOpt : Option Warehouse) (i : Nat) (r : Robot)
    (h : (Robot.move_down wOpt i r).2 = false) :
    (Robot.move_down wOpt i r).1.current_position = r.current_position ∧
      (Robot.move_down wOpt i r).1.movement_history = r.movement_history := by
  revert h
  simp only [Robot.move_down]
  split
  · intro h; cases h
  · intro _; exact ⟨rfl, rfl⟩

theorem move_left_fail_fields (wOpt : Option Warehouse) (i : Nat) (r : Robot)
    (h : (Robot.move_left wOpt i r).2 = false) :
    (Robot.move_left wOpt i r).1.current_position = r.current_position ∧
      (Robot.move_left wOpt i r).1.movement_history = r.movement_history := by
  revert h
  simp only [Robot.move_left]
  split
  · intro h; cases h
  · intro _; exact ⟨rfl, rfl⟩

theorem move_right_fail_fields (wOpt : Option Warehouse) (i : Nat) (r : Robot)
    (h : (Robot.move_right wOpt i r).2 = false) :
    (Robot.move_right wOpt i r).1.current_position = r.current_position ∧
      (Robot.move_right wOpt i r).1.movement_history = r.movement_history := by
  revert h
  simp only [Robot.move_right]
  split
  · intro h; cases h
  · intro _; exact ⟨rfl, rfl⟩

theorem moveByName_fail_fields (wOpt : Option Warehouse) (i : Nat) (r : Robot)
    (d : String) (h : (moveByName wOpt i r d).2 = false) :
    (moveByName wOpt i r d).1.current_position = r.current_position ∧
      (moveByName wOpt i r d).1.movement_history = r.movement_history := by
  revert h
  simp only [moveByName]
  split_ifs with h1 h2 h3 h4
  · exact move_up_fail_fields wOpt i r
  · exact move_down_fail_fields wOpt i r
  · exact move_left_fail_fields wOpt i r
  · exact move_right_fail_fields wOpt i r
  · intro _; exact ⟨rfl, rfl⟩

theorem replanAdd_mem (l : List String) (robot_id : String) :
    robot_id ∈ replanAdd l robot_id := by
  unfold replanAdd
  split
  · assumption
  · simp

/-! ## Claim theorems: planner scenarios and archive update -/

/-- C9: on the 5×5 grid with the single vertical aisle at `x = 2`, a dock at
`(2, 4)` and a station at `(2, 0)`, `a_star_search` from `(2, 4)` to
`(2, 0)` returns exactly `[(2,4),(2,3),(2,2),(2,1),(2,0)]`, whose cost is 4
and whose entered cells all carry congestion 0 (so the congestion
contribution to the cost is zero). -/
theorem astar_concrete_vertical_aisle_path :
    a_star_search wVert (2, 4) (2, 0) "R1" [("R1", (2, 4))] 1 =
        [(2, 4), (2, 3), (2, 2), (2, 1), (2, 0)] ∧
      path_cost wVert 1 [(2, 4), (2, 3), (2, 2), (2, 1), (2, 0)] = 4 ∧
        ([(2, 3), (2, 2), (2, 1), (2, 0)] : List Pos).all
          (fun p => wVert.get_congestion p.1 p.2 == 0) = true :=
  ⟨by decide, by decide, by decide⟩

/-- C1: `a_star_search` does not always return a minimal-cost path.  On
`wSubopt` (all cells traversable, congestion 1 at `(3,1)` and 2 at `(1,0)`)
the search from `(4,1)` to `(0,0)` returns the top-row path of cost 7,
although the legal middle-row path `suboptCheaper` costs 6: when the
g-score of `(2,1)` improves while it already sits in the open set, its heap
priority is not updated, so the goal is popped before the cheaper route is
propagated. -/
theorem astar_returns_suboptimal_path_on_congested_grid :
    a_star_search wSubopt (4, 1) (0, 0) "R1" [("R1", (4, 1))] 1 = suboptReturned ∧
      path_cost wSubopt 1 suboptReturned = 7 ∧
        legal_path wSubopt (4, 1) (0, 0) [] suboptCheaper = true ∧
          path_cost wSubopt 1 suboptCheaper = 6 :=
  ⟨by decide, by decide, by decide, by decide⟩

/-- C2: `update_archive`'s `break` throws archived tuples away.  With the
archive `[(0,0,0)]` and a new tuple `(1,1,1)` dominated by it, the result is
`[]`: the dominating archived tuple itself is dropped (the loop breaks
before appending it) and the new tuple is not inserted, so the archive does
not retain every previously archived tuple. -/
theorem update_archive_drops_archive_when_new_is_dominated :
    update_archive [⟨0, 0, 0⟩] ⟨1, 1, 1⟩ = [] ∧
      dominates ⟨0, 0, 0⟩ ⟨1, 1, 1⟩ = true :=
  ⟨by decide, by decide⟩

/-- C3 counterexample: with `max_steps = 2` and one robot whose target is
unreachable (so neither success nor gridlock ever fires),
`execute_all_steps` executes three ticks, not two: the timeout check
`step_count > max_steps` runs before the tick that increments the counter,
so the run ends in timeout with `step_count = 3 > max_steps`.  The run is
NOT bounded by `max_steps` ticks as claimed, only by `max_steps + 1`. -/
theorem execute_all_steps_exceeds_max_steps_by_one :
    (execute_all_steps (RobotController.make wTimeoutDemo) 2).map
      (fun r => (r.2, r.1.step_count)) = some (Outcome.timeout, 3) := by
  decide

/-- C4 counterexample: on `wDockDemo` the cell `(1, 0)` is an in-bounds dock
cell with no robot on it, yet `check_collision` reports a collision for a
move onto it, because `add_entry_dock` put it in the blocked set and the
blocked-set check has no dock/station exemption. -/
theorem dock_cell_move_rejected_despite_exemption_claim :
    Robot.check_collision (some wDockDemo) 0 1 0 = true ∧
      wDockDemo.is_valid_position 1 0 = true ∧
        wDockDemo.entry_docks.map (fun d => d.position) = [(1, 0)] ∧
          wDockDemo.active_robots = [] :=
  ⟨by decide, by decide, by decide, by decide⟩

/-- C5 counterexample: `evaluate_layout` mutates the warehouse it is passed:
on `wEvalDemo` (which the caller populated with robot `OLD_ROBOT` and a
congestion entry at `(3, 3)`) the evaluation returns a warehouse whose robot
list is the freshly created `ROBOT_000` and whose congestion entry at
`(3, 3)` is gone. -/
theorem evaluate_layout_mutates_passed_warehouse :
    ((evaluate_layout id id wEvalDemo 1).1.active_robots.map
        (fun r => r.robot_id)) = ["ROBOT_000"] ∧
      (wEvalDemo.active_robots.map (fun r => r.robot_id)) = ["OLD_ROBOT"] ∧
        wEvalDemo.congestion_map = [((3, 3), 1)] ∧
          lookupCount (evaluate_layout id id wEvalDemo 1).1.congestion_map (3, 3) = 0 :=
  ⟨by decide, by decide, by decide, by decide⟩

/-! ## Claim theorems: domination order, movement accounting, failed moves -/

/-- `dominates a b` holds exactly when `a` is no worse in every objective
and strictly better in at least one. -/
theorem dominates_iff (a b : Metrics) :
    dominates a b = true ↔
      (a.total_distance ≤ b.total_distance ∧ a.total_energy ≤ b.total_energy ∧
        a.max_congestion ≤ b.max_congestion ∧
        (a.total_distance < b.total_distance ∨ a.total_energy < b.total_energy ∨
          a.max_congestion < b.max_congestion)) := by
  unfold dominates
  split_ifs with h1 h2 h3
  · rw [decide_eq_true_eq] at h1
    simp only [false_iff]
    rintro ⟨hle, -, -, -⟩
    exact absurd h1 (not_lt.mpr hle)
  · rw [decide_eq_true_eq] at h2
    simp only [false_iff]
    rintro ⟨-, hle, -, -⟩
    exact absurd h2 (not_lt.mpr hle)
  · rw [decide_eq_true_eq] at h3
    simp only [false_iff]
    rintro ⟨-, -, hle, -⟩
    exact absurd h3 (not_lt.mpr hle)
  · simp only [decide_eq_true_eq] at h1 h2 h3
    push_neg at h1 h2 h3
    simp only [Bool.or_eq_true, decide_eq_true_eq]
    constructor
    · intro h
      refine ⟨h1, h2, h3, ?_⟩
      tauto
    · rintro ⟨-, -, -, h⟩
      tauto

/-- C8: `dominates` is a strict partial order on metrics tuples: it is
irreflexive, and it is transitive. -/
theorem dominates_strict_partial_order :
    (∀ a : Metrics, dominates a a = false) ∧
      (∀ a b c : Metrics, dominates a b = true → dominates b c = true →
        dominates a c = true) := by
  constructor
  · intro a
    rw [← Bool.not_eq_true]
    intro h
    rcases (dominates_iff a a).1 h with ⟨-, -, -, h4⟩
    rcases h4 with h | h | h <;> exact lt_irrefl _ h
  · intro a b c hab hbc
    rcases (dominates_iff a b).1 hab with ⟨d1, e1, c1, s1⟩
    rcases (dominates_iff b c).1 hbc with ⟨d2, e2, c2, s2⟩
    refine (dominates_iff a c).2 ⟨le_trans d1 d2, le_trans e1 e2, le_trans c1 c2, ?_⟩
    rcases s1 with h | h | h
    · exact Or.inl (lt_of_lt_of_le h d2)
    · exact Or.inr (Or.inl (lt_of_lt_of_le h e2))
    · exact Or.inr (Or.inr (lt_of_lt_of_le h c2))


/-- C10: a successful `move_right` updates only position and history — it
adds no movement energy and does not increment `successful_moves` — while
successful `move_left`, `move_up` and `move_down` each add `energy_per_move`
to the energy total and increment `successful_moves` by one.  Rightward
travel is therefore invisible to the energy report and to the
`total_distance` metric (which sums `successful_moves`). -/
theorem move_right_skips_energy_accounting :
    (∀ (wOpt : Option Warehouse) (i : Nat) (r : Robot),
      (Robot.move_right wOpt i r).2 = true →
        ((Robot.move_right wOpt i r).1.total_energy_spent = r.total_energy_spent ∧
          (Robot.move_right wOpt i r).1.successful_moves = r.successful_moves ∧
          (Robot.move_right wOpt i r).1.current_position =
            (r.current_position.1 + 1, r.current_position.2) ∧
          (Robot.move_right wOpt i r).1.movement_history =
            r.movement_history ++ [(r.current_position.1 + 1, r.current_position.2)])) ∧
    (∀ (wOpt : Option Warehouse) (i : Nat) (r : Robot),
      (Robot.move_left wOpt i r).2 = true →
        ((Robot.move_left wOpt i r).1.total_energy_spent =
            r.total_energy_spent + r.energy_per_move ∧
          (Robot.move_left wOpt i r).1.successful_moves = r.successful_moves + 1)) ∧
    (∀ (wOpt : Option Warehouse) (i : Nat) (r : Robot),
      (Robot.move_up wOpt i r).2 = true →
        ((Robot.move_up wOpt i r).1.total_energy_spent =
            r.total_energy_spent + r.energy_per_move ∧
          (Robot.move_up wOpt i r).1.successful_moves = r.successful_moves + 1)) ∧
    (∀ (wOpt : Option Warehouse) (i : Nat) (r : Robot),
      (Robot.move_down wOpt i r).2 = true →
        ((Robot.move_down wOpt i r).1.total_energy_spent =
            r.total_energy_spent + r.energy_per_move ∧
          (Robot.move_down wOpt i r).1.successful_moves = r.successful_moves + 1)) := by
  refine ⟨?_, ?_, ?_, ?_⟩ <;> intro wOpt i r h <;> revert h
  · simp only [Robot.move_right]
    split
    · intro _; exact ⟨rfl, rfl, rfl, rfl⟩
    · intro h; cases h
  · simp only [Robot.move_left]
    split
    · intro _; exact ⟨rfl, rfl⟩
    · intro h; cases h
  · simp only [Robot.move_up]
    split
    · intro _; exact ⟨rfl, rfl⟩
    · intro h; cases h
  · simp only [Robot.move_down]
    split
    · intro _; exact ⟨rfl, rfl⟩
    · intro h; cases h


/-- C7: when a robot's attempted move fails the legality checks, its
position and movement history are unchanged, the pending command stays at
the head of its queue (the queue is not advanced), the robot is marked for
replanning and no movement is counted; and the tick's per-robot fold simply
continues with the remaining robots. -/
theorem failed_move_preserves_state_and_marks_replan :
    (∀ (acc : TickAcc) (i : Nat) (robot : Robot) (c1 : RobotController)
        (direction : String) (restCmds : List String),
      strGet c1.robot_commands robot.robot_id = some (direction :: restCmds) →
      (moveByName (some c1.warehouse) i robot direction).2 = false →
        ((moveByName (some c1.warehouse) i robot direction).1.current_position =
            robot.current_position ∧
          (moveByName (some c1.warehouse) i robot direction).1.movement_history =
            robot.movement_history ∧
          (attemptMove acc i robot c1).c.robot_commands = c1.robot_commands ∧
          strGet (attemptMove acc i robot c1).c.robot_commands robot.robot_id =
            some (direction :: restCmds) ∧
          robot.robot_id ∈ (attemptMove acc i robot c1).robots_to_replan ∧
          (attemptMove acc i robot c1).movements_made = acc.movements_made ∧
          (attemptMove acc i robot c1).c.warehouse.active_robots =
            c1.warehouse.active_robots.set i
              (moveByName (some c1.warehouse) i robot direction).1)) ∧
    (∀ (acc : TickAcc) (i : Nat) (l : List Nat),
      List.foldl stepRobot acc (i :: l) = List.foldl stepRobot (stepRobot acc i) l) := by
  constructor
  · intro acc i robot c1 direction restCmds hq hf
    obtain ⟨hpos, hhist⟩ := moveByName_fail_fields (some c1.warehouse) i robot direction hf
    have hstep : attemptMove acc i robot c1 =
        { c := { c1 with warehouse :=
            { c1.warehouse with active_robots :=
                (c1.warehouse.active_robots.set i
                  (moveByName (some c1.warehouse) i robot direction).1) } },
          movements_made := acc.movements_made,
          robots_with_commands := acc.robots_with_commands + 1,
          robots_to_replan := replanAdd acc.robots_to_replan robot.robot_id } := by
      unfold attemptMove
      rw [hq]
      simp only [hf, Bool.false_eq_true, if_false]
    rw [hstep]
    exact ⟨hpos, hhist, rfl, hq, replanAdd_mem _ _, rfl, rfl⟩
  · intro acc i l
    rfl

/-! ## Claim theorems: move legality characterisation -/

theorem is_valid_position_iff (w : Warehouse) (x y : Int) :
    w.is_valid_position x y = true ↔ (0 ≤ x ∧ x < w.width ∧ 0 ≤ y ∧ y < w.height) := by
  simp [Warehouse.is_valid_position]

theorem is_blocked_position_iff (w : Warehouse) (x y : Int) :
    w.is_blocked_position x y = true ↔ (x, y) ∈ w.blocked_positions := by
  simp [Warehouse.is_blocked_position]

theorem is_position_in_aisle_iff (w : Warehouse) (x y : Int) :
    w.is_position_in_aisle x y = true ↔
      ((∃ a ∈ w.aisles, (x, y) ∈ a.positions) ∨
        (∃ d ∈ w.entry_docks, d.position = (x, y)) ∨
        (∃ s ∈ w.packing_stations, s.position = (x, y))) := by
  simp [Warehouse.is_position_in_aisle, List.any_eq_true, beq_iff_eq, or_assoc]

theorem mem_other_robot_cells (w : Warehouse) (i : Nat) (x y : Int) :
    (x, y) ∈ other_robot_cells w i ↔
      ∃ jr ∈ w.active_robots.enum, jr.1 ≠ i ∧ jr.2.current_position = (x, y) := by
  simp only [other_robot_cells, List.mem_map, List.mem_filter, decide_eq_true_eq]
  constructor
  · rintro ⟨jr, ⟨hmem, hne⟩, hpos⟩
    exact ⟨jr, hmem, hne, hpos⟩
  · rintro ⟨jr, hmem, hne, hpos⟩
    exact ⟨jr, ⟨hmem, hne⟩, hpos⟩

/-- C4: a robot's move onto a cell is legal (no collision) if and only if
the cell is in bounds, not occupied by another robot, NOT in the blocked
set, and an aisle, dock or station cell.  There is no dock/station
exemption from the blocked-set check: a dock cell, which `add_entry_dock`
registers as blocked, therefore fails this characterisation. -/
theorem collision_free_iff_unblocked_traversable (w : Warehouse) (i : Nat) (x y : Int) :
    Robot.check_collision (some w) i x y = false ↔
      ((0 ≤ x ∧ x < w.width ∧ 0 ≤ y ∧ y < w.height) ∧
        (x, y) ∉ other_robot_cells w i ∧
        (x, y) ∉ w.blocked_positions ∧
        ((∃ a ∈ w.aisles, (x, y) ∈ a.positions) ∨
          (∃ d ∈ w.entry_docks, d.position = (x, y)) ∨
          (∃ s ∈ w.packing_stations, s.position = (x, y)))) := by
  have hocc : (w.active_robots.enum.any
      (fun jr => jr.1 != i && jr.2.current_position == (x, y))) = true ↔
      (x, y) ∈ other_robot_cells w i := by
    rw [mem_other_robot_cells]
    simp [List.any_eq_true, bne_iff_ne, beq_iff_eq, Bool.and_eq_true]
  simp only [Robot.check_collision]
  split_ifs with h1 h2 h3 h4
  · simp only [Bool.not_eq_true', ← is_valid_position_iff] at h1 ⊢
    simp [h1]
  · rw [hocc] at h2
    simp only [Bool.not_eq_true] at h1
    constructor
    · intro h; cases h
    · rintro ⟨-, hno, -, -⟩; exact absurd h2 hno
  · rw [is_blocked_position_iff] at h3
    constructor
    · intro h; cases h
    · rintro ⟨-, -, hno, -⟩; exact absurd h3 hno
  · simp only [Bool.not_eq_true', ] at h4
    constructor
    · intro h; cases h
    · rintro ⟨-, -, -, hyes⟩
      rw [← is_position_in_aisle_iff] at hyes
      rw [hyes] at h4
      cases h4
  · simp only [Bool.not_eq_true'] at h1 h4
    have hv := (is_valid_position_iff w x y).1 (by simpa using h1)
    have ha := (is_position_in_aisle_iff w x y).1 (by simpa using h4)
    have hno2 : (x, y) ∉ other_robot_cells w i := fun hmem => h2 (hocc.2 hmem)
    have hno3 : (x, y) ∉ w.blocked_positions := fun hmem =>
      h3 ((is_blocked_position_iff w x y).2 hmem)
    simp [hv, ha, hno2, hno3]

/-! ## Claim theorems: simulated annealing best-cost bookkeeping -/


theorem saStep_evaluated (n : Nat) (weights : Weights) (cr : Rat) (s : SAState)
    (it : SAIter) :
    (saStep n weights cr s it).evaluated = s.evaluated ++
      [calculate_cost (evaluate_layout it.shuffleD it.shuffleS
        (get_neighbor_layout it.pick_storage it.pick_aisle s.current_solution) n).2
        weights] := by
  rfl

theorem saStep_best (n : Nat) (weights : Weights) (cr : Rat) (s : SAState)
    (it : SAIter) (hbc : s.best_cost ≤ s.current_cost) :
    (saStep n weights cr s it).best_cost = min s.best_cost
        (calculate_cost (evaluate_layout it.shuffleD it.shuffleS
          (get_neighbor_layout it.pick_storage it.pick_aisle s.current_solution) n).2
          weights) ∧
      (saStep n weights cr s it).best_cost ≤ (saStep n weights cr s it).current_cost := by
  simp only [saStep]
  set x := calculate_cost (evaluate_layout it.shuffleD it.shuffleS
    (get_neighbor_layout it.pick_storage it.pick_aisle s.current_solution) n).2 weights with hx
  cases hacc : (decide (x - s.current_cost < 0) || it.coin) with
  | true =>
    simp only [hacc, if_true]
    constructor
    · rcases lt_or_le x s.best_cost with h | h
      · rw [if_pos (decide_eq_true h), min_eq_right (le_of_lt h)]
      · rw [if_neg (fun hd => (not_lt.mpr h) (of_decide_eq_true hd)), min_eq_left h]
    · split_ifs with h
      · exact le_refl x
      · exact not_lt.mp (fun hlt => h (decide_eq_true hlt))
  | false =>
    have hge : s.current_cost ≤ x := by
      have hnl : ¬ (x - s.current_cost < 0) := by
        intro hlt
        simp [hlt] at hacc
      linarith
    simp only [hacc, Bool.false_eq_true, if_false]
    constructor
    · rw [if_neg (fun hd => (not_lt.mpr hbc) (of_decide_eq_true hd)),
        min_eq_left (hbc.trans hge)]
    · rw [if_neg (fun hd => (not_lt.mpr hbc) (of_decide_eq_true hd))]
      exact hbc

theorem saStep_best_le (n : Nat) (weights : Weights) (cr : Rat) (s : SAState)
    (it : SAIter) : (saStep n weights cr s it).best_cost ≤ s.best_cost := by
  simp only [saStep]
  split_ifs with h1 h2 h3
  · exact le_of_lt (of_decide_eq_true h2)
  · exact le_refl _
  · exact le_of_lt (of_decide_eq_true h3)
  · exact le_refl _

theorem saRun_invariant (n : Nat) (weights : Weights) (cr : Rat) :
    ∀ (l : List SAIter) (s : SAState), s.best_cost ≤ s.current_cost →
      ((l.foldl (saStep n weights cr) s).best_cost ≤
          (l.foldl (saStep n weights cr) s).current_cost ∧
        ((l.foldl (saStep n weights cr) s).evaluated.drop s.evaluated.length).foldl
            min s.best_cost = (l.foldl (saStep n weights cr) s).best_cost ∧
        ∃ t, (l.foldl (saStep n weights cr) s).evaluated = s.evaluated ++ t) := by
  intro l
  induction l with
  | nil =>
    intro s h
    refine ⟨h, ?_, [], by simp⟩
    simp [List.drop_length]
  | cons it l ih =>
    intro s h
    obtain ⟨hmin, hle⟩ := saStep_best n weights cr s it h
    set x := calculate_cost (evaluate_layout it.shuffleD it.shuffleS
      (get_neighbor_layout it.pick_storage it.pick_aisle s.current_solution) n).2 weights
      with hx
    obtain ⟨ih1, ih2, t, ih3⟩ := ih (saStep n weights cr s it) hle
    have hev : (saStep n weights cr s it).evaluated = s.evaluated ++ [x] := by
      rw [saStep_evaluated n weights cr s it, ← hx]
    rw [List.foldl_cons]
    refine ⟨ih1, ?_, [x] ++ t, ?_⟩
    · have hlen : (saStep n weights cr s it).evaluated.length = s.evaluated.length + 1 := by
        rw [hev]
        simp
      have hdrop1 : (l.foldl (saStep n weights cr) (saStep n weights cr s it)).evaluated.drop
            s.evaluated.length
          = x :: ((l.foldl (saStep n weights cr) (saStep n weights cr s it)).evaluated.drop
            (saStep n weights cr s it).evaluated.length) := by
        rw [ih3, hev]
        have h1 : s.evaluated ++ [x] ++ t = s.evaluated ++ ([x] ++ t) :=
          List.append_assoc _ _ _
        conv_lhs => rw [h1, List.drop_left]
        rw [List.drop_left]
        rfl
      rw [hdrop1]
      simp only [List.foldl_cons]
      rw [← hmin]
      exact ih2
    · rw [ih3, hev, List.append_assoc]

theorem saRun_best_le (n : Nat) (weights : Weights) (cr : Rat) :
    ∀ (l : List SAIter) (s : SAState),
      (l.foldl (saStep n weights cr) s).best_cost ≤ s.best_cost := by
  intro l
  induction l with
  | nil => intro s; exact le_refl _
  | cons it l ih =>
    intro s
    rw [List.foldl_cons]
    exact (ih (saStep n weights cr s it)).trans (saStep_best_le n weights cr s it)

theorem saRun_best_eq_min (n : Nat) (weights : Weights) (cr : Rat)
    (l : List SAIter) (s : SAState) (h : s.best_cost ≤ s.current_cost)
    (hev : s.evaluated = []) :
    (l.foldl (saStep n weights cr) s).best_cost =
      ((l.foldl (saStep n weights cr) s).evaluated).foldl min s.best_cost := by
  obtain ⟨-, h2, -⟩ := saRun_invariant n weights cr l s h
  rw [hev] at h2
  simpa using h2.symm

theorem saRun_evaluated_length (n : Nat) (weights : Weights) (cr : Rat) :
    ∀ (l : List SAIter) (s : SAState),
      (l.foldl (saStep n weights cr) s).evaluated.length =
        s.evaluated.length + l.length := by
  intro l
  induction l with
  | nil => intro s; simp
  | cons it l ih =>
    intro s
    rw [List.foldl_cons, ih, saStep_evaluated]
    simp
    omega

/-- C6: in every run of the single-objective simulated annealing loop, the
best cost is non-increasing from iteration to iteration (running any further
iterations can only lower it), and the best cost finally returned equals the
minimum scalar cost over every candidate evaluated during the run: the
initial layout's cost and every neighbour's cost, accepted or not (the
`evaluated` trace records exactly one neighbour cost per iteration). -/
theorem sa_best_cost_is_min_of_evaluated :
    (∀ (shD0 shS0 : List Pos → List Pos) (w : Warehouse) (n : Nat)
        (weights : Weights) (temp cool_rate : Rat) (iters : List SAIter),
      (simulated_annealing_optimizer shD0 shS0 w n weights temp cool_rate iters).best_cost =
        ((simulated_annealing_optimizer shD0 shS0 w n weights temp cool_rate
            iters).evaluated).foldl min
          (calculate_cost (evaluate_layout shD0 shS0 w n).2 weights)) ∧
    (∀ (shD0 shS0 : List Pos → List Pos) (w : Warehouse) (n : Nat)
        (weights : Weights) (temp cool_rate : Rat) (l1 l2 : List SAIter),
      (simulated_annealing_optimizer shD0 shS0 w n weights temp cool_rate
          (l1 ++ l2)).best_cost ≤
        (simulated_annealing_optimizer shD0 shS0 w n weights temp cool_rate l1).best_cost) ∧
    (∀ (shD0 shS0 : List Pos → List Pos) (w : Warehouse) (n : Nat)
        (weights : Weights) (temp cool_rate : Rat) (iters : List SAIter),
      (simulated_annealing_optimizer shD0 shS0 w n weights temp cool_rate
          iters).evaluated.length = iters.length) := by
  refine ⟨?_, ?_, ?_⟩
  · intro shD0 shS0 w n weights temp cool_rate iters
    simp only [simulated_annealing_optimizer]
    exact saRun_best_eq_min n weights cool_rate iters _ (le_of_eq rfl) rfl
  · intro shD0 shS0 w n weights temp cool_rate l1 l2
    simp only [simulated_annealing_optimizer]
    rw [List.foldl_append]
    exact saRun_best_le n weights cool_rate l2 _
  · intro shD0 shS0 w n weights temp cool_rate iters
    simp only [simulated_annealing_optimizer]
    rw [saRun_evaluated_length]
    simp

/-! ## Claim theorems: layout-structure preservation by evaluation -/

theorem sameLayout_refl (w : Warehouse) : sameLayout w w :=
  ⟨rfl, rfl, rfl, rfl⟩

theorem sameLayout_trans {a b c : Warehouse} (h1 : sameLayout a b)
    (h2 : sameLayout b c) : sameLayout a c := by
  obtain ⟨x1, x2, x3, x4⟩ := h1
  obtain ⟨y1, y2, y3, y4⟩ := h2
  exact ⟨y1.trans x1, y2.trans x2, y3.trans x3, y4.trans x4⟩

theorem generate_warehouse_eq (c : RobotController) (robot_id : String) :
    (generate_path_commands c robot_id).warehouse = c.warehouse := by
  unfold generate_path_commands
  split
  · rfl
  · dsimp only
    split <;> split <;> rfl

theorem generate_step_count_eq (c : RobotController) (robot_id : String) :
    (generate_path_commands c robot_id).step_count = c.step_count := by
  unfold generate_path_commands
  split
  · rfl
  · dsimp only
    split <;> split <;> rfl

theorem genfold_warehouse_eq (l : List String) :
    ∀ c : RobotController, (l.foldl generate_path_commands c).warehouse = c.warehouse := by
  induction l with
  | nil => intro c; rfl
  | cons x l ih =>
    intro c
    rw [List.foldl_cons, ih, generate_warehouse_eq]

theorem genfold_step_count_eq (l : List String) :
    ∀ c : RobotController, (l.foldl generate_path_commands c).step_count = c.step_count := by
  induction l with
  | nil => intro c; rfl
  | cons x l ih =>
    intro c
    rw [List.foldl_cons, ih, generate_step_count_eq]

theorem refill_warehouse_eq (c : RobotController) (robot : Robot) :
    (refillQueue c robot).warehouse = c.warehouse := by
  unfold refillQueue
  split
  · exact generate_warehouse_eq c robot.robot_id
  · rfl

theorem refill_step_count_eq (c : RobotController) (robot : Robot) :
    (refillQueue c robot).step_count = c.step_count := by
  unfold refillQueue
  split
  · exact generate_step_count_eq c robot.robot_id
  · rfl

theorem attempt_sameLayout (acc : TickAcc) (i : Nat) (robot : Robot)
    (c1 : RobotController) :
    sameLayout c1.warehouse (attemptMove acc i robot c1).c.warehouse := by
  unfold attemptMove
  split
  · dsimp only
    split_ifs <;> exact ⟨rfl, rfl, rfl, rfl⟩
  · exact ⟨rfl, rfl, rfl, rfl⟩

theorem attempt_step_count_eq (acc : TickAcc) (i : Nat) (robot : Robot)
    (c1 : RobotController) :
    (attemptMove acc i robot c1).c.step_count = c1.step_count := by
  unfold attemptMove
  split
  · dsimp only
    split_ifs <;> rfl
  · rfl

theorem stepRobot_sameLayout (acc : TickAcc) (i : Nat) :
    sameLayout acc.c.warehouse (stepRobot acc i).c.warehouse := by
  unfold stepRobot
  split
  · exact sameLayout_refl _
  · rename_i robot heq
    have h2 := attempt_sameLayout acc i robot (refillQueue acc.c robot)
    rw [refill_warehouse_eq acc.c robot] at h2
    exact h2

theorem stepRobot_step_count_eq (acc : TickAcc) (i : Nat) :
    (stepRobot acc i).c.step_count = acc.c.step_count := by
  unfold stepRobot
  split
  · rfl
  · rename_i robot heq
    rw [attempt_step_count_eq acc i robot (refillQueue acc.c robot),
      refill_step_count_eq acc.c robot]

theorem foldStep_sameLayout (J : List Nat) :
    ∀ acc : TickAcc, sameLayout acc.c.warehouse (J.foldl stepRobot acc).c.warehouse := by
  induction J with
  | nil => intro acc; exact sameLayout_refl _
  | cons j J ih =>
    intro acc
    rw [List.foldl_cons]
    exact sameLayout_trans (stepRobot_sameLayout acc j) (ih (stepRobot acc j))

theorem foldStep_step_count_eq (J : List Nat) :
    ∀ acc : TickAcc, (J.foldl stepRobot acc).c.step_count = acc.c.step_count := by
  induction J with
  | nil => intro acc; rfl
  | cons j J ih =>
    intro acc
    rw [List.foldl_cons, ih (stepRobot acc j), stepRobot_step_count_eq]

theorem tick_sameLayout (c : RobotController) :
    sameLayout c.warehouse (execute_one_step c).1.warehouse := by
  unfold execute_one_step
  dsimp only
  split_ifs <;>
    exact sameLayout_trans
      (foldStep_sameLayout (List.range c.warehouse.active_robots.length)
        ⟨{ c with step_count := c.step_count + 1 }, 0, 0, []⟩)
      (by rw [genfold_warehouse_eq]; exact sameLayout_refl _)

theorem tick_step_count (c : RobotController) :
    (execute_one_step c).1.step_count = c.step_count + 1 := by
  unfold execute_one_step
  dsimp only
  split_ifs <;>
    rw [genfold_step_count_eq, foldStep_step_count_eq]

theorem execAllLoop_sameLayout (ms : Nat) :
    ∀ (fuel : Nat) (c c' : RobotController) (o : Outcome),
      execAllLoop ms c fuel = some (c', o) → sameLayout c.warehouse c'.warehouse := by
  intro fuel
  induction fuel with
  | zero => intro c c' o h; cases h
  | succ fuel ih =>
    intro c c' o h
    unfold execAllLoop at h
    split_ifs at h with h1 h2
    · injection h with h
      injection h with h3 h4
      rw [← h3]
      exact sameLayout_refl _
    · rcases htick : execute_one_step c with ⟨c2, sig⟩
      rw [htick] at h
      have hsl := tick_sameLayout c
      rw [htick] at hsl
      cases sig
      · exact sameLayout_trans hsl (ih c2 c' o h)
      · injection h with h
        injection h with h3 h4
        rw [← h3]
        exact hsl
      · injection h with h
        injection h with h3 h4
        rw [← h3]
        exact hsl
    · injection h with h
      injection h with h3 h4
      rw [← h3]
      exact sameLayout_refl _

theorem initgen_warehouse_eq (l : List Robot) :
    ∀ c : RobotController,
      (l.foldl (fun cc r =>
        if !r.is_at_target then generate_path_commands cc r.robot_id else cc) c).warehouse
        = c.warehouse := by
  induction l with
  | nil => intro c; rfl
  | cons r l ih =>
    intro c
    rw [List.foldl_cons, ih]
    split
    · exact generate_warehouse_eq c r.robot_id
    · rfl

theorem allgen_warehouse_eq (l : List Robot) :
    ∀ c : RobotController,
      (l.foldl (fun cc r => generate_path_commands cc r.robot_id) c).warehouse
        = c.warehouse := by
  induction l with
  | nil => intro c; rfl
  | cons r l ih =>
    intro c
    rw [List.foldl_cons, ih, generate_warehouse_eq]

theorem execute_all_steps_sameLayout (c : RobotController) (ms : Nat)
    (c' : RobotController) (o : Outcome)
    (h : execute_all_steps c ms = some (c', o)) :
    sameLayout c.warehouse c'.warehouse := by
  unfold execute_all_steps at h
  have := execAllLoop_sameLayout ms (ms + 2) _ c' o h
  rw [initgen_warehouse_eq] at this
  exact this

theorem simulate_sameLayout (w : Warehouse) :
    sameLayout w (simulate_robot_movement_with_astar w).warehouse := by
  unfold simulate_robot_movement_with_astar
  dsimp only
  split
  · rename_i c' o heq
    have := execute_all_steps_sameLayout _ 50 c' o heq
    rw [allgen_warehouse_eq] at this
    exact this
  · rw [allgen_warehouse_eq]
    exact sameLayout_refl _

theorem placeRobots_sameLayout :
    ∀ (remaining : Nat) (w : Warehouse) (d s : List Pos) (i : Nat),
      sameLayout w (placeRobots w d s i remaining) := by
  intro remaining
  induction remaining with
  | zero => intro w d s i; exact sameLayout_refl _
  | succ rem ih =>
    intro w d s i
    unfold placeRobots
    split
    · exact sameLayout_refl _
    · split
      · exact sameLayout_trans (⟨rfl, rfl, rfl, rfl⟩ :
          sameLayout w _) (ih _ _ _ _)
      · exact sameLayout_refl _

/-- C5: an `evaluate_layout` call leaves the layout structure it does not
own — the blocked set, the aisles, the docks and the stations — unchanged
in the warehouse it returns, for every shuffle oracle, warehouse and robot
count.  (It does mutate the warehouse's robots and congestion map in place:
see the counterexample theorem.) -/
theorem evaluate_layout_preserves_layout_structure
    (shuffleD shuffleS : List Pos → List Pos) (w : Warehouse) (num_robots : Nat) :
    sameLayout w (evaluate_layout shuffleD shuffleS w num_robots).1 := by
  unfold evaluate_layout
  dsimp only
  refine sameLayout_trans (?_ : sameLayout w ({ w with active_robots := [] }.reset_congestion)) ?_
  · exact ⟨rfl, rfl, rfl, rfl⟩
  · exact sameLayout_trans (placeRobots_sameLayout _ _ _ _ _) (simulate_sameLayout _)

/-! ## Claim theorems: engine termination, outcome and per-tick displacement -/

theorem tick_allDone (c : RobotController)
    (h : (execute_one_step c).2 = TickSignal.allDone) :
    ((execute_one_step c).1.warehouse.active_robots.all
      (fun r => r.is_at_target)) = true := by
  unfold execute_one_step at h ⊢
  dsimp only at h ⊢
  split_ifs at h ⊢ with h1 h2
  all_goals try cases h
  simp only [Bool.and_eq_true] at h1
  have hno := h1.2
  rw [Bool.not_eq_true'] at hno
  rw [List.all_eq_true]
  intro r hr
  have := (List.any_eq_false.mp hno) r hr
  simpa using this

theorem execAllLoop_isSome (ms : Nat) :
    ∀ (fuel : Nat) (c : RobotController),
      max 1 (ms + 2 - c.step_count) ≤ fuel → (execAllLoop ms c fuel).isSome = true := by
  intro fuel
  induction fuel with
  | zero => intro c h; omega
  | succ fuel ih =>
    intro c h
    unfold execAllLoop
    split_ifs with h1 h2
    · rfl
    · rcases htick : execute_one_step c with ⟨c2, sig⟩
      have hcount : c2.step_count = c.step_count + 1 := by
        have := tick_step_count c
        rw [htick] at this
        exact this
      cases sig
      · dsimp only
        apply ih
        simp only [not_lt] at h2
        omega
      · rfl
      · rfl
    · rfl

theorem execAllLoop_step_bound (ms : Nat) :
    ∀ (fuel : Nat) (c c' : RobotController) (o : Outcome),
      execAllLoop ms c fuel = some (c', o) →
        c'.step_count ≤ max c.step_count (ms + 1) := by
  intro fuel
  induction fuel with
  | zero => intro c c' o h; cases h
  | succ fuel ih =>
    intro c c' o h
    unfold execAllLoop at h
    split_ifs at h with h1 h2
    · injection h with h
      injection h with h3 h4
      subst h3
      omega
    · rcases htick : execute_one_step c with ⟨c2, sig⟩
      rw [htick] at h
      have hcount : c2.step_count = c.step_count + 1 := by
        have := tick_step_count c
        rw [htick] at this
        exact this
      simp only [not_lt] at h2
      cases sig
      · have := ih c2 c' o h
        omega
      · injection h with h
        injection h with h3 h4
        subst h3
        omega
      · injection h with h
        injection h with h3 h4
        subst h3
        omega
    · injection h with h
      injection h with h3 h4
      subst h3
      omega

theorem execAllLoop_outcome (ms : Nat) :
    ∀ (fuel : Nat) (c c' : RobotController) (o : Outcome),
      execAllLoop ms c fuel = some (c', o) →
        ((o = Outcome.success ∧
            (c'.warehouse.active_robots.all (fun r => r.is_at_target)) = true) ∨
          o = Outcome.gridlock ∨ (o = Outcome.timeout ∧ ms < c'.step_count)) := by
  intro fuel
  induction fuel with
  | zero => intro c c' o h; cases h
  | succ fuel ih =>
    intro c c' o h
    unfold execAllLoop at h
    split_ifs at h with h1 h2
    · injection h with h
      injection h with h3 h4
      subst h3
      right; right
      exact ⟨h4.symm, h2⟩
    · rcases htick : execute_one_step c with ⟨c2, sig⟩
      rw [htick] at h
      cases sig
      · exact ih c2 c' o h
      · injection h with h
        injection h with h3 h4
        subst h3
        left
        refine ⟨h4.symm, ?_⟩
        have hall := tick_allDone c (by rw [htick])
        rw [htick] at hall
        exact hall
      · injection h with h
        injection h with h3 h4
        right; left
        exact h4.symm
    · injection h with h
      injection h with h3 h4
      subst h3
      left
      refine ⟨h4.symm, ?_⟩
      rw [List.all_eq_true]
      intro r hr
      have hfalse : (c.warehouse.get_active_robots.any (fun r => !r.is_at_target)) = false := by
        rw [← Bool.not_eq_true]
        exact h1
      have := (List.any_eq_false.mp hfalse) r hr
      simpa using this

theorem heuristic_self_le_one (p : Pos) : heuristic p p ≤ 1 := by
  simp [heuristic]

theorem move_up_dist (wOpt : Option Warehouse) (i : Nat) (r : Robot) :
    heuristic (Robot.move_up wOpt i r).1.current_position r.current_position ≤ 1 := by
  unfold Robot.move_up
  dsimp only
  split
  · simp only [Robot.consume_energy_for_move, heuristic]
    have h1 : r.current_position.1 - r.current_position.1 = 0 := by ring
    have h2 : r.current_position.2 - 1 - r.current_position.2 = -1 := by ring
    rw [h1, h2]
    decide
  · simpa [Robot.consume_energy_for_blocked_attempt] using heuristic_self_le_one r.current_position

theorem move_down_dist (wOpt : Option Warehouse) (i : Nat) (r : Robot) :
    heuristic (Robot.move_down wOpt i r).1.current_position r.current_position ≤ 1 := by
  unfold Robot.move_down
  dsimp only
  split
  · simp only [Robot.consume_energy_for_move, heuristic]
    have h1 : r.current_position.1 - r.current_position.1 = 0 := by ring
    have h2 : r.current_position.2 + 1 - r.current_position.2 = 1 := by ring
    rw [h1, h2]
    decide
  · simpa [Robot.consume_energy_for_blocked_attempt] using heuristic_self_le_one r.current_position

theorem move_left_dist (wOpt : Option Warehouse) (i : Nat) (r : Robot) :
    heuristic (Robot.move_left wOpt i r).1.current_position r.current_position ≤ 1 := by
  unfold Robot.move_left
  dsimp only
  split
  · simp only [Robot.consume_energy_for_move, heuristic]
    have h1 : r.current_position.1 - 1 - r.current_position.1 = -1 := by ring
    have h2 : r.current_position.2 - r.current_position.2 = 0 := by ring
    rw [h1, h2]
    decide
  · simpa [Robot.consume_energy_for_blocked_attempt] using heuristic_self_le_one r.current_position

theorem move_right_dist (wOpt : Option Warehouse) (i : Nat) (r : Robot) :
    heuristic (Robot.move_right wOpt i r).1.current_position r.current_position ≤ 1 := by
  unfold Robot.move_right
  dsimp only
  split
  · simp only [heuristic]
    have h1 : r.current_position.1 + 1 - r.current_position.1 = 1 := by ring
    have h2 : r.current_position.2 - r.current_position.2 = 0 := by ring
    rw [h1, h2]
    decide
  · simpa [Robot.consume_energy_for_blocked_attempt] using heuristic_self_le_one r.current_position

theorem moveByName_dist (wOpt : Option Warehouse) (i : Nat) (r : Robot) (d : String) :
    heuristic (moveByName wOpt i r d).1.current_position r.current_position ≤ 1 := by
  unfold moveByName
  split_ifs
  · exact move_up_dist wOpt i r
  · exact move_down_dist wOpt i r
  · exact move_left_dist wOpt i r
  · exact move_right_dist wOpt i r
  · exact heuristic_self_le_one r.current_position

theorem attempt_robots_ne (acc : TickAcc) (i k : Nat) (robot : Robot)
    (c1 : RobotController) (hk : k ≠ i) :
    ((attemptMove acc i robot c1).c.warehouse.active_robots)[k]? =
      (c1.warehouse.active_robots)[k]? := by
  unfold attemptMove
  split
  · dsimp only
    split_ifs <;>
      simp [Warehouse.record_congestion, List.getElem?_set_ne (Ne.symm hk)]
  · rfl

theorem attempt_robots_eq (acc : TickAcc) (i : Nat) (robot : Robot)
    (c1 : RobotController) (hik : (c1.warehouse.active_robots)[i]? = some robot) :
    ∃ b, ((attemptMove acc i robot c1).c.warehouse.active_robots)[i]? = some b ∧
      heuristic b.current_position robot.current_position ≤ 1 := by
  have hlen : i < c1.warehouse.active_robots.length := (List.getElem?_eq_some.mp hik).1
  unfold attemptMove
  split
  · rename_i cmds direction restCmds heq
    dsimp only [Warehouse.record_congestion]
    split_ifs with hs hc
    · refine ⟨_, List.getElem?_set_self (by simpa using hlen), ?_⟩
      simpa [Robot.add_congestion_penalty] using
        moveByName_dist (some c1.warehouse) i robot direction
    · refine ⟨_, List.getElem?_set_self hlen, ?_⟩
      exact moveByName_dist (some c1.warehouse) i robot direction
    · refine ⟨_, List.getElem?_set_self hlen, ?_⟩
      exact moveByName_dist (some c1.warehouse) i robot direction
  · exact ⟨robot, hik, heuristic_self_le_one robot.current_position⟩

theorem stepRobot_robots_ne (acc : TickAcc) (i k : Nat) (hk : k ≠ i) :
    ((stepRobot acc i).c.warehouse.active_robots)[k]? =
      (acc.c.warehouse.active_robots)[k]? := by
  unfold stepRobot
  split
  · rfl
  · rename_i robot heq
    have := attempt_robots_ne acc i k robot (refillQueue acc.c robot) hk
    rwa [refill_warehouse_eq acc.c robot] at this

theorem stepRobot_robots_eq (acc : TickAcc) (i : Nat) (a : Robot)
    (ha : (acc.c.warehouse.active_robots)[i]? = some a) :
    ∃ b, ((stepRobot acc i).c.warehouse.active_robots)[i]? = some b ∧
      heuristic b.current_position a.current_position ≤ 1 := by
  unfold stepRobot
  split
  · rename_i heq
    rw [heq] at ha
    cases ha
  · rename_i robot heq
    rw [heq] at ha
    injection ha with ha
    subst ha
    have := attempt_robots_eq acc i robot (refillQueue acc.c robot)
      (by rwa [refill_warehouse_eq acc.c robot])
    exact this

theorem foldStep_robots_not_mem (J : List Nat) :
    ∀ (acc : TickAcc) (k : Nat), k ∉ J →
      ((J.foldl stepRobot acc).c.warehouse.active_robots)[k]? =
        (acc.c.warehouse.active_robots)[k]? := by
  induction J with
  | nil => intro acc k _; rfl
  | cons j J ih =>
    intro acc k hk
    rw [List.foldl_cons, ih (stepRobot acc j) k (fun h => hk (List.mem_cons_of_mem j h)),
      stepRobot_robots_ne acc j k (fun h => hk (h ▸ List.mem_cons_self j J))]

theorem foldStep_robots (J : List Nat) (hnd : J.Nodup) :
    ∀ (acc : TickAcc) (k : Nat) (a : Robot),
      (acc.c.warehouse.active_robots)[k]? = some a →
      ∃ b, ((J.foldl stepRobot acc).c.warehouse.active_robots)[k]? = some b ∧
        heuristic b.current_position a.current_position ≤ 1 := by
  induction J with
  | nil =>
    intro acc k a ha
    exact ⟨a, ha, heuristic_self_le_one a.current_position⟩
  | cons j J ih =>
    intro acc k a ha
    rw [List.nodup_cons] at hnd
    rw [List.foldl_cons]
    by_cases hkj : k = j
    · subst hkj
      obtain ⟨b, hb, hdist⟩ := stepRobot_robots_eq acc k a ha
      refine ⟨b, ?_, hdist⟩
      rw [foldStep_robots_not_mem J (stepRobot acc k) k hnd.1, hb]
    · have hpres := stepRobot_robots_ne acc j k hkj
      exact ih hnd.2 (stepRobot acc j) k a (by rwa [hpres])

theorem tick_robots_expr (c : RobotController) :
    (execute_one_step c).1.warehouse.active_robots =
      (((List.range c.warehouse.active_robots.length).foldl stepRobot
        ⟨{ c with step_count := c.step_count + 1 }, 0, 0, []⟩).c.warehouse.active_robots) := by
  unfold execute_one_step
  dsimp only
  split_ifs <;> rw [genfold_warehouse_eq]

theorem tick_robots_within (c : RobotController) :
    robots_within_one_step c.warehouse.active_robots
      (execute_one_step c).1.warehouse.active_robots := by
  intro k a b hk hk'
  rw [tick_robots_expr c] at hk'
  obtain ⟨b', hb', hdist⟩ := foldStep_robots
    (List.range c.warehouse.active_robots.length)
    (List.nodup_range c.warehouse.active_robots.length)
    ⟨{ c with step_count := c.step_count + 1 }, 0, 0, []⟩ k a hk
  rw [hb'] at hk'
  injection hk' with hk'
  subst hk'
  exact hdist

theorem initgen_step_count_eq (l : List Robot) :
    ∀ c : RobotController,
      (l.foldl (fun cc r =>
        if !r.is_at_target then generate_path_commands cc r.robot_id else cc) c).step_count
        = c.step_count := by
  induction l with
  | nil => intro c; rfl
  | cons r l ih =>
    intro c
    rw [List.foldl_cons, ih]
    split
    · exact generate_step_count_eq c r.robot_id
    · rfl

/-- C3: for every controller state and timeout, `execute_all_steps` halts,
its final tick counter is bounded by `max(initial, max_steps + 1)` — so a
fresh run executes at most `max_steps + 1` ticks, one more than the claim's
bound — and it ends in one of the three terminal conditions: success (all
robots at target), gridlock, or timeout (counter beyond `max_steps`).
Moreover each tick advances every robot at most one grid cell. -/
theorem execute_all_steps_halts_bounded_with_outcome :
    (∀ (c : RobotController) (max_steps : Nat),
      ∃ (c' : RobotController) (o : Outcome),
        execute_all_steps c max_steps = some (c', o) ∧
        c'.step_count ≤ max c.step_count (max_steps + 1) ∧
        ((o = Outcome.success ∧
            (c'.warehouse.active_robots.all (fun r => r.is_at_target)) = true) ∨
          o = Outcome.gridlock ∨
          (o = Outcome.timeout ∧ max_steps < c'.step_count))) ∧
    (∀ c : RobotController,
      robots_within_one_step c.warehouse.active_robots
        (execute_one_step c).1.warehouse.active_robots) := by
  constructor
  · intro c max_steps
    unfold execute_all_steps
    dsimp only
    set c1 := ({ c with warehouse := c.warehouse.reset_congestion } :
        RobotController).warehouse.get_active_robots.foldl
      (fun cc r => if !r.is_at_target then generate_path_commands cc r.robot_id else cc)
      { c with warehouse := c.warehouse.reset_congestion } with hc1
    have hsc : c1.step_count = c.step_count := by
      rw [hc1, initgen_step_count_eq]
    have hsome := execAllLoop_isSome max_steps (max_steps + 2) c1 (by omega)
    rcases hrun : execAllLoop max_steps c1 (max_steps + 2) with - | ⟨c', o⟩
    · rw [hrun] at hsome
      cases hsome
    · refine ⟨c', o, rfl, ?_, ?_⟩
      · have := execAllLoop_step_bound max_steps (max_steps + 2) c1 c' o hrun
        omega
      · exact execAllLoop_outcome max_steps (max_steps + 2) c1 c' o hrun
  · exact tick_robots_within
